import Mathlib

/-!
Verification of the conference control-plane service (backend orchestration
engine): a shallow embedding of the data model and the operations of the
vacuum/upload pipeline, the stream lifecycle state machine, the transaction
correlation store and the list endpoints, together with theorems settling
the specification claims.

The embedding follows the Rust sources:
  src/app/endpoint/system.rs   (vacuum, orphaned room sweep, upload_event)
  src/backend/janus/mod.rs     (response/event/status handlers)
  src/app/endpoint/agent.rs    (agent.list limit)
  src/app/rtc_stream.rs        (rtc_stream.list limit)
  src/app/endpoint/helpers.rs  (room time checks)
  src/db/recording.rs, src/db/rtc.rs (row types)
Parts of the repository that are referenced but not present in the sources
(the base64 helpers of crate::util, the Transaction union, the
janus_rtc_stream / orphaned_room / agent query modules, recording
UpdateQuery) are modelled from the spec; each such definition carries a
doc comment saying so.
-/

namespace Conferences

/-- Error kinds of the application (src/app/error.rs is not in the sources;
the kinds are exactly the ones named by the embedded call sites). -/
inductive AppErrorKind
  | MessageParsingFailed
  | MessageBuildingFailed
  | BackendRequestFailed
  | BackendRecordingMissing
  | BackendClientCreationFailed
  | RtcNotFound
  | RoomNotFound
  | RoomClosed
  | NotImplemented
  | ConfigKeyMissing
  | DbQueryFailed
  deriving DecidableEq, Repr

/-- A range bound, mirroring Rust's `std::ops::Bound<DateTime<Utc>>`;
instants are modelled as integers. -/
inductive TimeBound
  | Unbounded
  | Included (t : Int)
  | Excluded (t : Int)
  deriving DecidableEq, Repr

/-- A time range `(Bound, Bound)` as used for room and stream times. -/
structure TimeRange where
  lo : TimeBound
  hi : TimeBound
  deriving DecidableEq, Repr

namespace recording

/-- The recording status enum exactly as declared in src/db/recording.rs
(lines 16-23): it has the two variants `Ready` and `Missing` and no
`InProgress` variant. -/
inductive Status
  | Ready
  | Missing
  deriving DecidableEq, Repr

end recording

/-- The recording status as consumed by the application code:
src/app/endpoint/system.rs matches `RecordingStatus::InProgress`,
`::Ready` and `::Missing` (upload_event, lines 345-359), so the
application-level status space has three values. -/
inductive RecordingStatus
  | InProgress
  | Ready
  | Missing
  deriving DecidableEq, Repr

/-- RTC sharing policy of a room, from src/db/rtc.rs (SharingPolicy). -/
inductive SharingPolicy
  | None
  | Shared
  | Owned
  deriving DecidableEq, Repr

/-- An rtc row, from src/db/rtc.rs (Object): id, room_id, created_by
(created_at is irrelevant to every claim and omitted). -/
structure Rtc where
  id : Nat
  roomId : Nat
  createdBy : String
  deriving DecidableEq, Repr

/-- A recording row: rtc_id, started_at, segments, status as in
src/db/recording.rs (Object), plus mjr_dumps_uris which the vacuum handler
of src/app/endpoint/system.rs reads and writes. Segments are kept as
(start, end) pairs; the source stores them as
(Bound::Included start, Bound::Excluded end). -/
structure Recording where
  rtcId : Nat
  startedAt : Option Nat
  segments : Option (List (Int × Int))
  mjrDumpsUris : Option (List String)
  status : RecordingStatus
  deriving DecidableEq, Repr

/-- A room row: id, time range, audience, rtc_sharing_policy, classroom_id,
timed_out, as consumed by system.rs and helpers.rs (db/room.rs itself is
not in the sources). -/
structure Room where
  id : Nat
  time : TimeRange
  audience : String
  rtcSharingPolicy : SharingPolicy
  classroomId : Option Nat
  timedOut : Bool
  deriving DecidableEq, Repr

/-- An agent presence row (db/agent.rs is not in the sources; the vacuum
handler deletes such rows by room id and agent.list filters them by room
id, so the row carries its agent and room). -/
structure AgentRow where
  agentId : String
  roomId : Nat
  deriving DecidableEq, Repr

/-- One upload configuration entry (config::UploadConfig): backend
descriptor and target bucket. -/
structure UploadConfig where
  backend : String
  bucket : String
  deriving DecidableEq, Repr

/-- The upload configuration maps: per audience, one entry for Shared-policy
rooms and one for Owned-policy rooms (context.config().upload). -/
structure UploadConfigs where
  shared : List (String × UploadConfig)
  owned : List (String × UploadConfig)
  deriving DecidableEq, Repr

/-- The persisted state touched by the vacuum/upload pipeline. -/
structure ConfDb where
  rooms : List Room
  rtcs : List Rtc
  recordings : List Recording
  agents : List AgentRow
  deriving DecidableEq, Repr

/-- Room time requirement of src/app/endpoint/helpers.rs. -/
inductive RoomTimeRequirement
  | Any
  | NotClosed
  | NotClosedOrUnboundedOpen
  | Open
  deriving DecidableEq, Repr

/-- check_room from src/app/endpoint/helpers.rs (lines 94-155), with the
current instant passed explicitly. -/
def checkRoom (room : Room) (req : RoomTimeRequirement) (now : Int) :
    Except AppErrorKind Room :=
  match req with
  | .Any => .ok room
  | .NotClosed =>
    match room.time.lo, room.time.hi with
    | .Unbounded, _ => .error .RoomClosed
    | _, .Included dt => if dt < now then .error .RoomClosed else .ok room
    | _, .Excluded dt => if dt < now then .error .RoomClosed else .ok room
    | _, _ => .ok room
  | .NotClosedOrUnboundedOpen =>
    match room.time.hi with
    | .Included dt => if dt < now then .error .RoomClosed else .ok room
    | .Excluded dt => if dt < now then .error .RoomClosed else .ok room
    | _ => .ok room
  | .Open =>
    match room.time.lo with
    | .Unbounded => .error .RoomClosed
    | .Included dt =>
      if dt ≥ now then .error .RoomClosed else checkRoomUpper room now
    | .Excluded dt =>
      if dt ≥ now then .error .RoomClosed else checkRoomUpper room now
where
  checkRoomUpper (room : Room) (now : Int) : Except AppErrorKind Room :=
    match room.time.hi with
    | .Included dt => if dt < now then .error .RoomClosed else .ok room
    | .Excluded dt => if dt < now then .error .RoomClosed else .ok room
    | .Unbounded => .ok room

/-- find_room_by_rtc_id of src/app/endpoint/helpers.rs: look the rtc up,
then its room, then apply the time requirement (db::room::find_by_rtc_id
is not in the sources; it is the rtc.room_id join). -/
def findRoomByRtcId (db : ConfDb) (rtcId : Nat) (req : RoomTimeRequirement)
    (now : Int) : Except AppErrorKind Room :=
  match db.rtcs.find? (fun r => r.id == rtcId) with
  | none => .error .RoomNotFound
  | some rtc =>
    match db.rooms.find? (fun r => r.id == rtc.roomId) with
    | none => .error .RoomNotFound
    | some room => checkRoom room req now

/-- Modelled from the spec: the recording UpdateQuery (absent from the
sources, which only keep InsertQuery) updates the status of the recording
row keyed by the given rtc id ("update-recording-status"). -/
def updateRecordingStatus (db : ConfDb) (id : Nat) (st : RecordingStatus) :
    ConfDb :=
  { db with
    recordings := db.recordings.map fun r =>
      if r.rtcId == id then { r with status := st } else r }

/-- The recording update performed by the vacuum Done branch of
src/app/endpoint/system.rs (lines 182-185):
`UpdateQuery::new(id).status(Ready).mjr_dumps_uris(uris)`. -/
def applyDoneUpdate (db : ConfDb) (id : Nat) (uris : Option (List String)) :
    ConfDb :=
  { db with
    recordings := db.recordings.map fun r =>
      if r.rtcId == id then
        { r with status := .Ready, mjrDumpsUris := uris }
      else r }

/-- The recording update performed by the UploadStream event branch of
src/backend/janus/mod.rs (lines 366-370):
`UpdateQuery::new(id).status(Ready).started_at(t).segments(segs)`. -/
def applyReadyUpdate (db : ConfDb) (id : Nat) (startedAt : Nat)
    (segments : List (Int × Int)) : ConfDb :=
  { db with
    recordings := db.recordings.map fun r =>
      if r.rtcId == id then
        { r with status := .Ready, startedAt := some startedAt,
                 segments := some segments }
      else r }

/-- rtc::ListWithRecordingQuery (the module is absent from the sources;
per the spec it is "list-rtc-with-recording(room)"): every rtc of the room
paired with its optional recording. Modelled from the spec. -/
def listWithRecording (db : ConfDb) (roomId : Nat) :
    List (Rtc × Option Recording) :=
  (db.rtcs.filter (fun r => r.roomId == roomId)).map fun rtc =>
    (rtc, db.recordings.find? (fun rec => rec.rtcId == rtc.id))

/-- upload_config from src/app/endpoint/system.rs (lines 385-404). -/
def uploadConfig (cfg : UploadConfigs) (room : Room) :
    Except AppErrorKind UploadConfig :=
  match room.rtcSharingPolicy with
  | .None => .error .NotImplemented
  | .Shared =>
    match (cfg.shared.find? (fun p => p.1 == room.audience)) with
    | some p => .ok p.2
    | none => .error .ConfigKeyMissing
  | .Owned =>
    match (cfg.owned.find? (fun p => p.1 == room.audience)) with
    | some p => .ok p.2
    | none => .error .ConfigKeyMissing

/-- record_name from src/app/endpoint/system.rs (lines 406-419): for
Owned-policy rooms with a classroom id the name is prefixed by the
classroom id; the filename is the rtc id with the fixed
".source.webm" ending. -/
def recordName (rec : Recording) (room : Room) : String :=
  let pfx :=
    match room.rtcSharingPolicy with
    | .Owned =>
      match room.classroomId with
      | some cid => toString cid ++ "/"
      | none => ""
    | _ => ""
  pfx ++ toString rec.rtcId ++ ".source.webm"

/-- One entry of a room.upload notification (RtcUploadEventData of
src/app/endpoint/system.rs). -/
structure RtcUploadEventData where
  id : Nat
  status : RecordingStatus
  uri : Option String
  createdBy : String
  mjrDumpsUris : Option (List String)
  deriving DecidableEq, Repr

/-- A room.upload notification payload (RoomUploadEventData), together with
its label and topic. -/
structure RoomUploadEvent where
  label : String
  topic : String
  id : Nat
  rtcs : List RtcUploadEventData
  deriving DecidableEq, Repr

/-- The uri of one event entry in upload_event
(src/app/endpoint/system.rs lines 345-360): InProgress is an error,
Missing has no uri, Ready gets the s3 uri built from the bucket of the
room's upload config and record_name. -/
def entryUri (cfg : UploadConfigs) (room : Room) (rec' : Recording) :
    Except AppErrorKind (Option String) :=
  match rec'.status with
  | .InProgress => .error .MessageBuildingFailed
  | .Missing => .ok none
  | .Ready =>
    match uploadConfig cfg room with
    | .error e => .error e
    | .ok c => .ok (some ("s3://" ++ c.bucket ++ "/" ++ recordName rec' room))

/-- The entry-building loop of upload_event (lines 344-371): one entry per
(recording, rtc) pair, in order, aborting on the first error. -/
def uploadEventEntries (cfg : UploadConfigs) (room : Room) :
    List (Recording × Rtc) → Except AppErrorKind (List RtcUploadEventData)
  | [] => .ok []
  | p :: rest =>
    match entryUri cfg room p.1 with
    | .error e => .error e
    | .ok uri =>
      match uploadEventEntries cfg room rest with
      | .error e => .error e
      | .ok entries =>
        .ok ({ id := p.1.rtcId, status := p.1.status, uri := uri,
               createdBy := p.2.createdBy,
               mjrDumpsUris := p.1.mjrDumpsUris } :: entries)

/-- upload_event from src/app/endpoint/system.rs (lines 334-383): the
room.upload event broadcast to the audience topic, with one entry per
(recording, rtc) pair. -/
def uploadEvent (cfg : UploadConfigs) (room : Room)
    (recordings : List (Recording × Rtc)) :
    Except AppErrorKind RoomUploadEvent :=
  match uploadEventEntries cfg room recordings with
  | .error e => .error e
  | .ok entries =>
    .ok { label := "room.upload",
          topic := "audiences/" ++ room.audience ++ "/events",
          id := room.id, rtcs := entries }

/-- The upload response union of the backend client
(src/backend/janus/client/upload_stream.rs is absent from the sources;
modelled from the spec: response is Missing, AlreadyRunning, or Done with
the dump uris that the vacuum handler of system.rs destructures). -/
inductive UploadResponse
  | Missing (id : Nat)
  | AlreadyRunning (id : Nat)
  | Done (id : Nat) (mjrDumpsUris : Option (List String))
  deriving DecidableEq, Repr

/-- Outbound publishable messages of the vacuum sweep: room.close
notifications and room.upload events. -/
inductive OutMsg
  | roomClose (topic : String) (room : Room)
  | roomUpload (ev : RoomUploadEvent)
  deriving DecidableEq, Repr

/-- Whether a vacuum message is a room.upload event. -/
def OutMsg.isRoomUpload : OutMsg → Bool
  | .roomUpload _ => true
  | _ => false

/-- The `match janus_response` block of VacuumHandler::handle in
src/app/endpoint/system.rs (lines 161-233): Missing marks the recording
Missing (and only logs); AlreadyRunning does nothing; Done applies the
Ready update, re-reads the room's (rtc, recording) pairs, and emits one
room.upload event exactly when every pair has no recording or a Ready
recording. -/
def handleUploadResponse (cfg : UploadConfigs) (db : ConfDb) (now : Int)
    (resp : UploadResponse) : ConfDb × Except AppErrorKind (List OutMsg) :=
  match resp with
  | .Missing id => (updateRecordingStatus db id .Missing, .ok [])
  | .AlreadyRunning _ => (db, .ok [])
  | .Done id uris =>
    let db' := applyDoneUpdate db id uris
    match db'.rtcs.find? (fun r => r.id == id) with
    | none => (db', .error .RtcNotFound)
    | some rtc =>
      match findRoomByRtcId db' rtc.id .Any now with
      | .error e => (db', .error e)
      | .ok room =>
        let pairs := listWithRecording db' room.id
        let roomDone := pairs.all fun p =>
          match p.2 with
          | none => true
          | some rec' => rec'.status == .Ready
        if roomDone then
          let recsWithRtcs := pairs.filterMap fun p =>
            p.2.bind fun rec' =>
              if rec'.status == .Ready then some (rec', p.1) else none
          match uploadEvent cfg room recsWithRtcs with
          | .error e => (db', .error e)
          | .ok ev => (db', .ok [.roomUpload ev])
        else (db', .ok [])

/-- One work item of the vacuum sweep, as yielded by
finished_with_in_progress_recordings: a (room, recording, backend)
triple. The backend is its agent id. -/
structure VacuumItem where
  room : Room
  recording : Recording
  backendId : String
  deriving DecidableEq, Repr

/-- One iteration of the vacuum loop of VacuumHandler::handle
(src/app/endpoint/system.rs lines 129-234): delete the room's agent rows,
resolve the upload config, issue the upload request (its outcome is the
`janus` parameter, keyed by rtc id), add the room.close notification, then
process the response. Every failure is propagated (the source applies `?`
at each step). -/
def vacuumStep (cfg : UploadConfigs) (janus : Nat → Except AppErrorKind UploadResponse)
    (now : Int) (db : ConfDb) (item : VacuumItem) :
    ConfDb × Except AppErrorKind (List OutMsg) :=
  let db₁ := { db with agents := db.agents.filter fun a => a.roomId != item.room.id }
  match uploadConfig cfg item.room with
  | .error e => (db₁, .error e)
  | .ok _ =>
    match janus item.recording.rtcId with
    | .error e => (db₁, .error e)
    | .ok resp =>
      let closeMsg := OutMsg.roomClose
        ("rooms/" ++ toString item.room.id ++ "/events") item.room
      match handleUploadResponse cfg db₁ now resp with
      | (db₂, .error e) => (db₂, .error e)
      | (db₂, .ok msgs) => (db₂, .ok (closeMsg :: msgs))

/-- The vacuum sweep over its work items (the `for` loop of
VacuumHandler::handle): notifications accumulate in the response, which is
returned only when every item succeeded; the first failing item aborts the
loop with its error, keeping the persisted mutations made so far but
discarding the accumulated response. -/
def vacuumLoop (cfg : UploadConfigs) (janus : Nat → Except AppErrorKind UploadResponse)
    (now : Int) (db : ConfDb) (items : List VacuumItem) (acc : List OutMsg) :
    ConfDb × Except AppErrorKind (List OutMsg) :=
  match items with
  | [] => (db, .ok acc)
  | item :: rest =>
    match vacuumStep cfg janus now db item with
    | (db', .error e) => (db', .error e)
    | (db', .ok msgs) => vacuumLoop cfg janus now db' rest (acc ++ msgs)

/-- The fields of `plugin.data` that the UploadStream event branch of
src/backend/janus/mod.rs reads: the embedded status (a stringified
number), the rtc id, the optional "already_running" state marker, the
start timestamp and the segment list. -/
structure PluginData where
  status : Option String
  id : Option Nat
  state : Option String
  startedAt : Option Nat
  time : Option (List (Int × Int))
  deriving DecidableEq, Repr

/-- The Transaction::UploadStream event branch of handle_response_impl in
src/backend/janus/mod.rs (lines 270-418): a missing status is a parsing
failure; "200" proceeds; "404" marks the transaction's recording Missing
and fails with BackendRecordingMissing; any other status fails with
BackendRequestFailed. On "200": parse the id; the "already_running" state
returns silently; otherwise parse started_at and segments, apply the
Ready update, re-read the room's (rtc, recording) pairs, and emit one
room.upload event exactly when every rtc has a recording. -/
def handleUploadStreamEvent (cfg : UploadConfigs) (db : ConfDb) (now : Int)
    (tnRtcId : Nat) (pd : PluginData) :
    ConfDb × Except AppErrorKind (List OutMsg) :=
  match pd.status with
  | none => (db, .error .MessageParsingFailed)
  | some status =>
    if status == "200" then
      match pd.id with
      | none => (db, .error .MessageParsingFailed)
      | some id =>
        if pd.state == some "already_running" then (db, .ok [])
        else
          match pd.startedAt with
          | none => (db, .error .MessageParsingFailed)
          | some startedAt =>
            match pd.time with
            | none => (db, .error .MessageParsingFailed)
            | some segments =>
              let db' := applyReadyUpdate db id startedAt segments
              match db'.rtcs.find? (fun r => r.id == id) with
              | none => (db', .error .RtcNotFound)
              | some rtc =>
                match findRoomByRtcId db' rtc.id .Any now with
                | .error e => (db', .error e)
                | .ok room =>
                  let pairs := listWithRecording db' room.id
                  let rtcsTotal := pairs.length
                  let recsWithRtcs := pairs.filterMap fun p =>
                    p.2.map fun rec' => (rec', p.1)
                  if recsWithRtcs.length < rtcsTotal then (db', .ok [])
                  else
                    match uploadEvent cfg room recsWithRtcs with
                    | .error e => (db', .error e)
                    | .ok ev => (db', .ok [.roomUpload ev])
    else if status == "404" then
      (updateRecordingStatus db tnRtcId .Missing, .error .BackendRecordingMissing)
    else (db, .error .BackendRequestFailed)

/-- A janus rtc stream row (db/janus_rtc_stream.rs is absent from the
sources): keyed by (backend id, handle id) and an rtc id, with an optional
time range; per the spec a stream "is active iff it has a recorded start
and no recorded stop". -/
structure JanusRtcStream where
  id : Nat
  handleId : Int
  rtcId : Nat
  backendId : String
  time : Option TimeRange
  deriving DecidableEq, Repr

/-- A stream is active iff its time is set (a start was recorded) and its
upper bound is still unbounded (no stop recorded). -/
def JanusRtcStream.isActive (s : JanusRtcStream) : Bool :=
  match s.time with
  | some t =>
    match t.hi with
    | .Unbounded => true
    | _ => false
  | none => false

/-- A janus backend row, from the upsert in src/backend/janus/mod.rs
(janus_backend::UpsertQuery). -/
structure JanusBackend where
  id : String
  handleId : Int
  sessionId : Int
  deriving DecidableEq, Repr

/-- An agent connection row, bulk-removed by backend or by room
(db/agent_connection.rs is absent from the sources; modelled from the
spec: it "links an agent presence row to a handle/rtc"). -/
structure AgentConnection where
  agentId : String
  handleId : Int
  rtcId : Nat
  roomId : Nat
  backendId : String
  deriving DecidableEq, Repr

/-- The persisted state touched by the stream lifecycle state machine. -/
structure StreamDb where
  streams : List JanusRtcStream
  rtcs : List Rtc
  rooms : List Room
  agentConnections : List AgentConnection
  backends : List JanusBackend
  deriving DecidableEq, Repr

/-- An rtc_stream.update notification as built by update_event of
src/app/endpoint/rtc_stream.rs: broadcast to the room's topic. -/
structure StreamUpdateEvent where
  label : String
  topic : String
  stream : JanusRtcStream
  deriving DecidableEq, Repr

/-- update_event: label "rtc_stream.update", topic "rooms/{room_id}/events"
(src/app/rtc_stream.rs lines 89-96). -/
def updateEvent (roomId : Nat) (stream : JanusRtcStream) : StreamUpdateEvent :=
  { label := "rtc_stream.update",
    topic := "rooms/" ++ toString roomId ++ "/events",
    stream := stream }

/-- The backend-offline branch of handle_status_event_impl in
src/backend/janus/mod.rs (lines 648-681): inside one transaction, list the
streams active on the backend joined with their rtcs, bulk-disconnect the
agent connections on the backend and delete the backend row; then set the
stop bound of each listed stream to now and emit one rtc_stream.update
notification per listed stream to its rtc's room. -/
def handleStatusOffline (st : StreamDb) (backendId : String) (now : Int) :
    StreamDb × List StreamUpdateEvent :=
  let streamsWithRtc :=
    (st.streams.filter fun s => s.backendId == backendId && s.isActive).filterMap
      fun s => (st.rtcs.find? (fun r => r.id == s.rtcId)).map fun r => (s, r)
  let st' := { st with
    agentConnections := st.agentConnections.filter fun c => c.backendId != backendId,
    backends := st.backends.filter fun b => b.id != backendId }
  let events := streamsWithRtc.map fun p =>
    let stopped := { p.1 with
      time := p.1.time.map fun t => { lo := t.lo, hi := .Excluded now } }
    updateEvent p.2.roomId stopped
  (st', events)

/-- find_rtc_stream of src/backend/janus/mod.rs (lines 597-610): the
stream list query filtered by backend id, handle id and active(false),
limited to one row (the janus_rtc_stream ListQuery is absent from the
sources; modelled from the spec as the matching inactive rows, most
recent first, of which the first is taken). -/
def findRtcStream (st : StreamDb) (backendId : String) (handleId : Int) :
    Option JanusRtcStream :=
  (st.streams.filter fun s =>
    s.backendId == backendId && s.handleId == handleId && !s.isActive).head?

/-- Modelled from the spec: janus_rtc_stream::start (absent from the
sources) marks the stream row started, recording the start instant. -/
def startStream (s : JanusRtcStream) (now : Int) : JanusRtcStream :=
  { s with time := some { lo := .Included now, hi := .Unbounded } }

/-- handle_webrtc_up of src/backend/janus/mod.rs (lines 506-546): inside
one transaction, look the most recent inactive stream for (backend,
handle) up; if absent, do nothing; if present, mark it started; then find
the owning room (Open requirement) and emit exactly one rtc_stream.update
notification. The room lookup happens after the transaction, so its
failure keeps the started stream. -/
def handleWebRtcUp (st : StreamDb) (backendId : String) (handleId : Int)
    (now : Int) : StreamDb × Except AppErrorKind (List StreamUpdateEvent) :=
  match findRtcStream st backendId handleId with
  | none => (st, .ok [])
  | some s =>
    let s' := startStream s now
    let st' := { st with
      streams := st.streams.map fun t => if t.id == s.id then s' else t }
    (st',
      match st.rtcs.find? (fun r => r.id == s.rtcId) with
      | none => .error .RoomNotFound
      | some rtc =>
        match st.rooms.find? (fun r => r.id == rtc.roomId) with
        | none => .error .RoomNotFound
        | some room =>
          match checkRoom room .Open now with
          | .error e => .error e
          | .ok room => .ok [updateEvent room.id s'])

/-- is_closed on a room (db/room.rs is absent from the sources): closed
iff the close bound is set and lies strictly before now, consistent with
the "Room closed" checks of src/app/endpoint/helpers.rs. -/
def Room.isClosed (room : Room) (now : Int) : Bool :=
  match room.time.hi with
  | .Included dt => dt < now
  | .Excluded dt => dt < now
  | .Unbounded => false

/-- The close update of OrphanedRoomCloseHandler
(src/app/endpoint/system.rs lines 283-286):
`UpdateQuery::new(room.id()).time(Some((room.time().0, Excluded(now)))).timed_out()`
keeps the open bound and sets the close bound to now. -/
def closeRoom (room : Room) (now : Int) : Room :=
  { room with time := { lo := room.time.lo, hi := .Excluded now },
              timedOut := true }

/-- A room.close notification built by helpers::build_notification. -/
structure CloseNotif where
  label : String
  topic : String
  room : Room
  deriving DecidableEq, Repr

/-- Result of one orphaned-room sweep: the close updates applied, the
tracking rows removed, the notifications returned. -/
structure OrphanSweepResult where
  updatedRooms : List Room
  removedIds : List Nat
  notifs : List CloseNotif
  deriving DecidableEq, Repr

/-- The close-task selection of OrphanedRoomCloseHandler (lines 278-297):
a joined, still-open room yields its close update, anything else yields
nothing. -/
def orphanCloseF (now : Int) (p : Nat × Option Room) : Option Room :=
  p.2.bind fun room =>
    if !room.isClosed now then some (closeRoom room now) else none

/-- The already-handled selection of OrphanedRoomCloseHandler (lines
293-296): a missing or already-closed room marks its tracking row handled
immediately. -/
def orphanSkipF (now : Int) (p : Nat × Option Room) : Option Nat :=
  match p.2 with
  | some room => if room.isClosed now then some p.1 else none
  | none => some p.1

/-- The two room.close notifications emitted per closed room (lines
303-316): one on the room's topic, one on the audience-wide topic. -/
def orphanNotifs (room : Room) : List CloseNotif :=
  [{ label := "room.close",
     topic := "rooms/" ++ toString room.id ++ "/events", room := room },
   { label := "room.close",
     topic := "audiences/" ++ room.audience ++ "/events", room := room }]

/-- OrphanedRoomCloseHandler::handle of src/app/endpoint/system.rs (lines
276-329), with the close tasks succeeding: the timed-out tracking rows
come joined with their optional room; a still-open room is closed (close
bound set to now) and produces its two room.close notifications; a
missing or already-closed room is only marked handled; afterwards every
handled tracking row is removed, independent of the notification
outcomes. -/
def orphanSweep (timedOut : List (Nat × Option Room)) (now : Int) :
    OrphanSweepResult :=
  let closeTasks := timedOut.filterMap (orphanCloseF now)
  { updatedRooms := closeTasks,
    removedIds := timedOut.filterMap (orphanSkipF now) ++
      closeTasks.map (fun r => r.id),
    notifs := closeTasks.flatMap orphanNotifs }

/-- The maximum page size of the list endpoints (MAX_LIMIT in
src/app/endpoint/agent.rs and src/app/rtc_stream.rs). -/
def MAX_LIMIT : Int := 25

/-- The effective row limit passed to the agent list query by
ListHandler::handle (src/app/endpoint/agent.rs line 58):
`min(payload.limit.unwrap_or(MAX_LIMIT), MAX_LIMIT)`. -/
def agentListEffectiveLimit (requested : Option Int) : Int :=
  min (requested.getD MAX_LIMIT) MAX_LIMIT

/-- The effective row limit passed to the stream list query by State::list
(src/app/rtc_stream.rs lines 74-77):
`min(limit.unwrap_or(MAX_LIMIT), MAX_LIMIT)`. -/
def rtcStreamListEffectiveLimit (requested : Option Int) : Int :=
  min (requested.getD MAX_LIMIT) MAX_LIMIT

/-- Modelled from the spec: the agent ListQuery (db/agent.rs is absent
from the sources) filters presence rows by room, skips the offset and
truncates to the limit. -/
def agentListQuery (agents : List AgentRow) (roomId : Nat) (offset limit : Int) :
    List AgentRow :=
  (((agents.filter fun a => a.roomId == roomId).drop offset.toNat).take
    limit.toNat)

/-- The agent.list request payload (src/app/endpoint/agent.rs). -/
structure AgentListRequest where
  roomId : Nat
  offset : Option Int
  limit : Option Int
  deriving DecidableEq, Repr

/-- The query part of agent.list (ListHandler::handle, lines 53-61):
offset defaults to 0 and the limit is the effective limit. -/
def agentListHandler (agents : List AgentRow) (payload : AgentListRequest) :
    List AgentRow :=
  agentListQuery agents payload.roomId (payload.offset.getD 0)
    (agentListEffectiveLimit payload.limit)

/-- Modelled from the spec: the janus_rtc_stream ListQuery (absent from
the sources) filters stream rows by room (through their rtc), skips the
offset and truncates to the limit. -/
def rtcStreamListQuery (st : StreamDb) (roomId : Nat) (offset limit : Int) :
    List JanusRtcStream :=
  (((st.streams.filter fun s =>
      (st.rtcs.find? fun r => r.id == s.rtcId).any fun r => r.roomId == roomId).drop
    offset.toNat).take limit.toNat)

/-- The rtc_stream.list request payload (src/app/rtc_stream.rs). -/
structure RtcStreamListRequest where
  roomId : Nat
  rtcId : Option Nat
  offset : Option Int
  limit : Option Int
  deriving DecidableEq, Repr

/-- The query part of rtc_stream.list (State::list, lines 67-80): offset
passes through and the limit is the effective limit. -/
def rtcStreamListHandler (st : StreamDb) (payload : RtcStreamListRequest) :
    List JanusRtcStream :=
  rtcStreamListQuery st payload.roomId (payload.offset.getD 0)
    (rtcStreamListEffectiveLimit payload.limit)

/-- Modelled from the spec: the transaction correlation union
(src/backend/janus/client/transactions.rs is absent from the sources).
A closed tagged union of the operation kinds, each variant carrying the
data needed to resume processing when its response arrives. -/
inductive TransactionKind
  | CreateSession (capacity : Nat) (balancerCapacity : Nat)
  | CreateControlHandle (sessionId : Nat) (capacity : Option Nat)
      (balancerCapacity : Option Nat)
  | CreatePoolHandle (sessionId : Nat)
  | CreateStream (rtcId : Nat)
  | ReadStream (rtcId : Nat)
  | Trickle (handleId : Nat)
  | UploadStream (rtcId : Nat) (startTimestamp : Nat)
  | AgentSpeaking
  deriving DecidableEq, Repr

/-- Modelled from the spec: a Transaction value carries its optional kind
and a trace identifier (transactions.rs is absent from the sources; the
commented test of src/app/endpoint/system.rs destructures
`Transaction { kind: Some(..), .. }`). -/
structure Transaction where
  kind : Option TransactionKind
  traceId : Option Nat
  deriving DecidableEq, Repr

/-- Modelled from the spec: the serializer writes a natural as a
self-delimiting little-endian base-128 varint (crate::util's serializer is
absent from the sources; any lossless byte serialization realizes the
contract). -/
def encodeVarint (n : Nat) : List Nat :=
  if h : n < 128 then [n]
  else (128 + n % 128) :: encodeVarint (n / 128)
  termination_by n
  decreasing_by exact Nat.div_lt_self (by omega) (by omega)

/-- Read one varint back, returning the value and the remaining bytes. -/
def decodeVarint : List Nat → Option (Nat × List Nat)
  | [] => none
  | b :: rest =>
    if b < 128 then some (b, rest)
    else
      match decodeVarint rest with
      | some (n, r) => some (b - 128 + 128 * n, r)
      | none => none

/-- Serialize an optional natural: a 0 byte for none, a 1 byte followed by
the varint for some. -/
def encodeOptNat : Option Nat → List Nat
  | none => [0]
  | some n => 1 :: encodeVarint n

/-- Read an optional natural back. -/
def decodeOptNat : List Nat → Option (Option Nat × List Nat)
  | 0 :: rest => some (none, rest)
  | 1 :: rest =>
    match decodeVarint rest with
    | some (n, r) => some (some n, r)
    | none => none
  | _ => none

/-- Serialize a transaction kind: one tag byte followed by its fields. -/
def encodeKind : TransactionKind → List Nat
  | .CreateSession c b => 0 :: (encodeVarint c ++ encodeVarint b)
  | .CreateControlHandle s c b => 1 :: (encodeVarint s ++ encodeOptNat c ++ encodeOptNat b)
  | .CreatePoolHandle s => 2 :: encodeVarint s
  | .CreateStream r => 3 :: encodeVarint r
  | .ReadStream r => 4 :: encodeVarint r
  | .Trickle h => 5 :: encodeVarint h
  | .UploadStream r t => 6 :: (encodeVarint r ++ encodeVarint t)
  | .AgentSpeaking => [7]

/-- Read a transaction kind back. -/
def decodeKind (bs : List Nat) : Option (TransactionKind × List Nat) :=
  match bs with
  | 0 :: rest => do
    let (c, r₁) ← decodeVarint rest
    let (b, r₂) ← decodeVarint r₁
    some (.CreateSession c b, r₂)
  | 1 :: rest => do
    let (s, r₁) ← decodeVarint rest
    let (c, r₂) ← decodeOptNat r₁
    let (b, r₃) ← decodeOptNat r₂
    some (.CreateControlHandle s c b, r₃)
  | 2 :: rest => do
    let (s, r₁) ← decodeVarint rest
    some (.CreatePoolHandle s, r₁)
  | 3 :: rest => do
    let (r, r₁) ← decodeVarint rest
    some (.CreateStream r, r₁)
  | 4 :: rest => do
    let (r, r₁) ← decodeVarint rest
    some (.ReadStream r, r₁)
  | 5 :: rest => do
    let (h, r₁) ← decodeVarint rest
    some (.Trickle h, r₁)
  | 6 :: rest => do
    let (r, r₁) ← decodeVarint rest
    let (t, r₂) ← decodeVarint r₁
    some (.UploadStream r t, r₂)
  | 7 :: rest => some (.AgentSpeaking, rest)
  | _ => none

/-- Serialize a whole Transaction to bytes: the optional kind then the
optional trace id. -/
def serTransaction (t : Transaction) : List Nat :=
  (match t.kind with
   | none => [0]
   | some k => 1 :: encodeKind k) ++ encodeOptNat t.traceId

/-- Read a whole Transaction back from bytes. -/
def deserTransaction (bs : List Nat) : Option (Transaction × List Nat) := do
  let (kind, r₁) ←
    match bs with
    | 0 :: rest => some ((none : Option TransactionKind), rest)
    | 1 :: rest =>
      match decodeKind rest with
      | some (k, r) => some (some k, r)
      | none => none
    | _ => none
  let (traceId, r₂) ← decodeOptNat r₁
  some ({ kind := kind, traceId := traceId }, r₂)

/-- Modelled from the spec: base64 encoding of a byte list to a list of
6-bit symbols, 64 standing for the '=' pad (crate::util::to_base64 is
absent from the sources). -/
def base64Encode : List Nat → List Nat
  | [] => []
  | [a] => [a / 4, a % 4 * 16, 64, 64]
  | [a, b] => [a / 4, a % 4 * 16 + b / 16, b % 16 * 4, 64]
  | a :: b :: c :: rest =>
    a / 4 :: (a % 4 * 16 + b / 16) :: (b % 16 * 4 + c / 64) :: c % 64 ::
      base64Encode rest

/-- Modelled from the spec: base64 decoding back to the byte list
(crate::util::from_base64 is absent from the sources); a corrupt token
decodes to none. -/
def base64Decode : List Nat → Option (List Nat)
  | [] => some []
  | w :: x :: y :: z :: rest =>
    if z == 64 then
      if rest.isEmpty then
        if y == 64 then some [w * 4 + x / 16]
        else some [w * 4 + x / 16, x % 16 * 16 + y / 4]
      else none
    else
      match base64Decode rest with
      | some tl => some ((w * 4 + x / 16) :: (x % 16 * 16 + y / 4) ::
          (y % 4 * 64 + z) :: tl)
      | none => none
  | _ => none

/-- register of the Transaction Correlation Store: serialize the
transaction and base64-encode it (spec section 4.1). -/
def registerTransaction (t : Transaction) : List Nat :=
  base64Encode (serTransaction t)

/-- resolve of the Transaction Correlation Store: base64-decode the token
and deserialize it, requiring the bytes to be consumed in full; any
corruption yields none (spec section 4.1). -/
def resolveTransaction (token : List Nat) : Option Transaction :=
  match base64Decode token with
  | none => none
  | some bs =>
    match deserTransaction bs with
    | some (t, []) => some t
    | _ => none

/-- A sample open Shared-policy room used by concrete instantiations. -/
def sampleRoom : Room :=
  { id := 10, time := { lo := .Included 0, hi := .Excluded 50 },
    audience := "aud", rtcSharingPolicy := .Shared, classroomId := none,
    timedOut := false }

/-- A sample Owned-policy room with a classroom id. -/
def sampleOwnedRoom : Room :=
  { id := 11, time := { lo := .Included 0, hi := .Excluded 50 },
    audience := "aud", rtcSharingPolicy := .Owned, classroomId := some 77,
    timedOut := false }

/-- A sample upload configuration with entries for the "aud" audience. -/
def sampleCfg : UploadConfigs :=
  { shared := [("aud", { backend := "janus", bucket := "bkt" })],
    owned := [("aud", { backend := "janus", bucket := "bkt2" })] }

/-- A sample database: one room, one rtc, one InProgress recording. -/
def sampleDb : ConfDb :=
  { rooms := [sampleRoom],
    rtcs := [{ id := 1, roomId := 10, createdBy := "alice" }],
    recordings := [{ rtcId := 1, startedAt := none, segments := none,
                     mjrDumpsUris := none, status := .InProgress }],
    agents := [{ agentId := "alice", roomId := 10 }] }

/-- A sample database with a second rtc whose recording is Missing. -/
def sampleDbWithMissing : ConfDb :=
  { rooms := [sampleRoom],
    rtcs := [{ id := 1, roomId := 10, createdBy := "alice" },
             { id := 2, roomId := 10, createdBy := "bob" }],
    recordings := [{ rtcId := 1, startedAt := none, segments := none,
                     mjrDumpsUris := none, status := .InProgress },
                   { rtcId := 2, startedAt := none, segments := none,
                     mjrDumpsUris := none, status := .Missing }],
    agents := [] }

/-- The room.upload event produced for a list of all-Ready (recording,
rtc) pairs: one entry per pair, each carrying the s3 uri. -/
def readyUploadEvent (c : UploadConfig) (room : Room)
    (l : List (Recording × Rtc)) : RoomUploadEvent :=
  { label := "room.upload",
    topic := "audiences/" ++ room.audience ++ "/events",
    id := room.id,
    rtcs := l.map fun q =>
      { id := q.1.rtcId, status := .Ready,
        uri := some ("s3://" ++ c.bucket ++ "/" ++ recordName q.1 room),
        createdBy := q.2.createdBy, mjrDumpsUris := q.1.mjrDumpsUris } }

/-- A sample database whose second rtc already has a Ready recording. -/
def sampleDbReady : ConfDb :=
  { rooms := [sampleRoom],
    rtcs := [{ id := 1, roomId := 10, createdBy := "alice" },
             { id := 2, roomId := 10, createdBy := "bob" }],
    recordings := [{ rtcId := 1, startedAt := none, segments := none,
                     mjrDumpsUris := none, status := .InProgress },
                   { rtcId := 2, startedAt := none, segments := none,
                     mjrDumpsUris := none, status := .Ready }],
    agents := [] }

/-- A second sample room (id 20) in the same audience. -/
def sampleRoom2 : Room :=
  { id := 20, time := { lo := .Included 0, hi := .Excluded 50 },
    audience := "aud", rtcSharingPolicy := .Shared, classroomId := none,
    timedOut := false }

/-- A sample vacuum work item for room 10 / recording 1. -/
def sampleItem1 : VacuumItem :=
  { room := sampleRoom,
    recording := { rtcId := 1, startedAt := none, segments := none,
                   mjrDumpsUris := none, status := .InProgress },
    backendId := "b1" }

/-- A sample vacuum work item for room 20 / recording 2. -/
def sampleItem2 : VacuumItem :=
  { room := sampleRoom2,
    recording := { rtcId := 2, startedAt := none, segments := none,
                   mjrDumpsUris := none, status := .InProgress },
    backendId := "b1" }

/-- A sample backend: the upload request for recording 1 is confirmed as
already running, the one for recording 2 fails. -/
def sampleJanus : Nat → Except AppErrorKind UploadResponse := fun i =>
  if i == 1 then .ok (.AlreadyRunning 1) else .error .BackendRequestFailed

/-- A sample stream database: streams 5 (active) and 6 (inactive) on
backend "b1", stream 7 (active) on backend "b2", their rtcs in room 10,
agent connections and backend rows on both backends. -/
def sampleStreamDb : StreamDb :=
  { streams := [{ id := 5, handleId := 7, rtcId := 1, backendId := "b1",
                  time := some { lo := .Included 1, hi := .Unbounded } },
                { id := 6, handleId := 8, rtcId := 2, backendId := "b1",
                  time := none },
                { id := 7, handleId := 9, rtcId := 1, backendId := "b2",
                  time := some { lo := .Included 2, hi := .Unbounded } }],
    rtcs := [{ id := 1, roomId := 10, createdBy := "alice" },
             { id := 2, roomId := 10, createdBy := "bob" }],
    rooms := [sampleRoom],
    agentConnections := [{ agentId := "alice", handleId := 7, rtcId := 1,
                           roomId := 10, backendId := "b1" },
                         { agentId := "carol", handleId := 9, rtcId := 1,
                           roomId := 10, backendId := "b2" }],
    backends := [{ id := "b1", handleId := 1, sessionId := 100 },
                 { id := "b2", handleId := 2, sessionId := 200 }] }

/-- A sample "already_running" upload confirmation payload. -/
def samplePdAlready : PluginData :=
  { status := some "200", id := some 1, state := some "already_running",
    startedAt := none, time := none }

/-- A sample upload confirmation payload with an embedded "404" status. -/
def samplePd404 : PluginData :=
  { status := some "404", id := some 1, state := none,
    startedAt := none, time := none }

/-- A sample upload confirmation payload with an embedded "500" status. -/
def samplePd500 : PluginData :=
  { status := some "500", id := some 1, state := none,
    startedAt := none, time := none }

theorem decodeVarint_encodeVarint (n : Nat) (rest : List Nat) :
    decodeVarint (encodeVarint n ++ rest) = some (n, rest) := by
  induction n using Nat.strong_induction_on with
  | _ n ih =>
    unfold encodeVarint
    split
    · simp [decodeVarint, *]
    · rename_i h
      simp only [List.cons_append, decodeVarint]
      rw [if_neg (by omega)]
      rw [List.append_eq, ih (n / 128) (Nat.div_lt_self (by omega) (by omega))]
      have hn : n % 128 + 128 * (n / 128) = n := by omega
      simp [hn]

theorem encodeVarint_lt (n : Nat) : ∀ b ∈ encodeVarint n, b < 256 := by
  induction n using Nat.strong_induction_on with
  | _ n ih =>
    unfold encodeVarint
    split
    · intro b hb
      simp only [List.mem_singleton] at hb
      omega
    · intro b hb
      simp only [List.mem_cons] at hb
      rcases hb with rfl | hb
      · omega
      · exact ih (n / 128) (Nat.div_lt_self (by omega) (by omega)) b hb

theorem decodeOptNat_encodeOptNat (o : Option Nat) (rest : List Nat) :
    decodeOptNat (encodeOptNat o ++ rest) = some (o, rest) := by
  cases o with
  | none => simp [encodeOptNat, decodeOptNat]
  | some n => simp [encodeOptNat, decodeOptNat, decodeVarint_encodeVarint]

theorem encodeOptNat_lt (o : Option Nat) : ∀ b ∈ encodeOptNat o, b < 256 := by
  cases o with
  | none => simp [encodeOptNat]
  | some n =>
    intro b hb
    simp only [encodeOptNat, List.mem_cons] at hb
    rcases hb with rfl | hb
    · omega
    · exact encodeVarint_lt n b hb

theorem decodeKind_encodeKind (k : TransactionKind) (rest : List Nat) :
    decodeKind (encodeKind k ++ rest) = some (k, rest) := by
  cases k <;>
    simp [encodeKind, decodeKind, List.append_assoc,
      decodeVarint_encodeVarint, decodeOptNat_encodeOptNat]

theorem forall_lt_append {l₁ l₂ : List Nat} (h₁ : ∀ b ∈ l₁, b < 256)
    (h₂ : ∀ b ∈ l₂, b < 256) : ∀ b ∈ l₁ ++ l₂, b < 256 := by
  intro b hb
  rcases List.mem_append.mp hb with h | h
  · exact h₁ b h
  · exact h₂ b h

theorem forall_lt_cons {a : Nat} {l : List Nat} (ha : a < 256)
    (h : ∀ b ∈ l, b < 256) : ∀ b ∈ a :: l, b < 256 := by
  intro b hb
  rcases List.mem_cons.mp hb with rfl | hb
  · exact ha
  · exact h b hb

theorem encodeKind_lt (k : TransactionKind) : ∀ b ∈ encodeKind k, b < 256 := by
  cases k with
  | CreateSession c b =>
    exact forall_lt_cons (by omega)
      (forall_lt_append (encodeVarint_lt _) (encodeVarint_lt _))
  | CreateControlHandle s c b =>
    exact forall_lt_cons (by omega)
      (forall_lt_append (forall_lt_append (encodeVarint_lt _) (encodeOptNat_lt _))
        (encodeOptNat_lt _))
  | CreatePoolHandle s => exact forall_lt_cons (by omega) (encodeVarint_lt _)
  | CreateStream r => exact forall_lt_cons (by omega) (encodeVarint_lt _)
  | ReadStream r => exact forall_lt_cons (by omega) (encodeVarint_lt _)
  | Trickle h => exact forall_lt_cons (by omega) (encodeVarint_lt _)
  | UploadStream r t =>
    exact forall_lt_cons (by omega)
      (forall_lt_append (encodeVarint_lt _) (encodeVarint_lt _))
  | AgentSpeaking => intro b hb; simp only [encodeKind, List.mem_singleton] at hb; omega

theorem deserTransaction_serTransaction (t : Transaction) (rest : List Nat) :
    deserTransaction (serTransaction t ++ rest) = some (t, rest) := by
  cases t with
  | mk kind traceId =>
    cases kind with
    | none =>
      simp [serTransaction, deserTransaction, decodeOptNat_encodeOptNat]
    | some k =>
      simp [serTransaction, deserTransaction, List.append_assoc,
        decodeKind_encodeKind, decodeOptNat_encodeOptNat]

theorem serTransaction_lt (t : Transaction) :
    ∀ b ∈ serTransaction t, b < 256 := by
  intro b hb
  cases t with
  | mk kind traceId =>
    simp only [serTransaction, List.mem_append] at hb
    rcases hb with h | h
    · cases kind with
      | none => simp only [List.mem_singleton] at h; omega
      | some k =>
        simp only [List.mem_cons] at h
        rcases h with rfl | h
        · omega
        · exact encodeKind_lt k b h
    · exact encodeOptNat_lt traceId b h

theorem base64Decode_base64Encode (bs : List Nat) (h : ∀ b ∈ bs, b < 256) :
    base64Decode (base64Encode bs) = some bs := by
  induction bs using base64Encode.induct with
  | case1 => rfl
  | case2 a =>
    have ha : a < 256 := h a (by simp)
    simp only [base64Encode, base64Decode, beq_iff_eq, List.isEmpty_nil,
      if_true]
    simp only [Option.some.injEq, List.cons.injEq, and_true]
    omega
  | case3 a b =>
    have ha : a < 256 := h a (by simp)
    have hb : b < 256 := h b (by simp)
    simp only [base64Encode, base64Decode, beq_iff_eq, List.isEmpty_nil,
      if_true]
    rw [if_neg (by omega)]
    simp only [Option.some.injEq, List.cons.injEq, and_true]
    omega
  | case4 a b c rest ih =>
    have ha : a < 256 := h a (by simp)
    have hb : b < 256 := h b (by simp)
    have hc : c < 256 := h c (by simp)
    have hrest : ∀ x ∈ rest, x < 256 := fun x hx => h x (by simp [hx])
    simp only [base64Encode, base64Decode, beq_iff_eq]
    rw [if_neg (by omega)]
    rw [ih hrest]
    simp only [Option.some.injEq, List.cons.injEq, and_true]
    omega

/-- C2: for every constructible Transaction value T, decoding the
correlation token produced by encoding T yields T again:
resolve (register T) = T, where register serializes and base64-encodes the
Transaction and resolve base64-decodes and deserializes it. -/
theorem transaction_token_round_trip (t : Transaction) :
    resolveTransaction (registerTransaction t) = some t := by
  unfold resolveTransaction registerTransaction
  rw [base64Decode_base64Encode _ (serTransaction_lt t)]
  have h := deserTransaction_serTransaction t []
  rw [List.append_nil] at h
  simp [h]

/-- C4: the recording status enum declared in src/db/recording.rs has
exactly the two variants Ready and Missing; the InProgress status the
claim (and the rest of the repository, e.g. the
`RecordingStatus::InProgress` match arm of upload_event in
src/app/endpoint/system.rs) presumes is not a constructor of the declared
enum. -/
theorem recording_status_has_no_in_progress (s : recording.Status) :
    s = recording.Status.Ready ∨ s = recording.Status.Missing := by
  cases s
  · exact Or.inl rfl
  · exact Or.inr rfl

/-- C10: for agent.list and rtc_stream.list the effective row limit passed
to the persistence query is the minimum of the requested limit and 25,
defaulting to 25 when the request carries no limit, and the returned row
list never holds more than 25 entries. -/
theorem list_limit_capped_at_25 (agents : List AgentRow) (st : StreamDb)
    (p : AgentListRequest) (q : RtcStreamListRequest) :
    agentListEffectiveLimit p.limit = min (p.limit.getD 25) 25 ∧
    agentListEffectiveLimit none = 25 ∧
    rtcStreamListEffectiveLimit q.limit = min (q.limit.getD 25) 25 ∧
    rtcStreamListEffectiveLimit none = 25 ∧
    (agentListHandler agents p).length ≤ 25 ∧
    (rtcStreamListHandler st q).length ≤ 25 := by
  refine ⟨rfl, rfl, rfl, rfl, ?_, ?_⟩
  · calc (agentListHandler agents p).length
        ≤ (agentListEffectiveLimit p.limit).toNat := List.length_take_le _ _
      _ ≤ 25 := by
          unfold agentListEffectiveLimit MAX_LIMIT
          omega
  · calc (rtcStreamListHandler st q).length
        ≤ (rtcStreamListEffectiveLimit q.limit).toNat := List.length_take_le _ _
      _ ≤ 25 := by
          unfold rtcStreamListEffectiveLimit MAX_LIMIT
          omega

/-- C6: an UploadStream response with embedded status "404" updates the
recording row to Missing and fails with BackendRecordingMissing — not with
BackendRequestFailed — while every other non-"200" embedded status fails
with BackendRequestFailed and leaves the state untouched. -/
theorem upload_404_reclassified_as_missing (cfg : UploadConfigs) (db : ConfDb)
    (now : Int) (tnRtcId : Nat) (pd : PluginData) (status : String)
    (hst : pd.status = some status) :
    (status = "404" →
      handleUploadStreamEvent cfg db now tnRtcId pd =
        (updateRecordingStatus db tnRtcId .Missing,
         .error .BackendRecordingMissing) ∧
      ∀ r ∈ (updateRecordingStatus db tnRtcId .Missing).recordings,
        r.rtcId = tnRtcId → r.status = .Missing) ∧
    (status ≠ "200" → status ≠ "404" →
      handleUploadStreamEvent cfg db now tnRtcId pd =
        (db, .error .BackendRequestFailed)) ∧
    AppErrorKind.BackendRecordingMissing ≠ AppErrorKind.BackendRequestFailed := by
  refine ⟨?_, ?_, by decide⟩
  · rintro rfl
    constructor
    · simp [handleUploadStreamEvent, hst]
    · intro r hr hid
      simp only [updateRecordingStatus, List.mem_map] at hr
      obtain ⟨r₀, _, hf⟩ := hr
      by_cases h : r₀.rtcId = tnRtcId
      · simp only [h, beq_self_eq_true, if_true] at hf
        rw [← hf]
      · simp only [beq_iff_eq, h, if_false] at hf
        subst hf
        exact absurd hid h
  · intro h200 h404
    simp [handleUploadStreamEvent, hst, h200, h404]

/-- C6 witness: at status "404" on the sample database the recording is
marked Missing and the failure kind is BackendRecordingMissing; at status
"500" the failure kind is BackendRequestFailed. -/
theorem upload_404_reclassified_as_missing_witness :
    (samplePd404.status = some "404") ∧
    handleUploadStreamEvent sampleCfg sampleDb 0 1 samplePd404 =
      (updateRecordingStatus sampleDb 1 .Missing,
       .error .BackendRecordingMissing) ∧
    handleUploadStreamEvent sampleCfg sampleDb 0 1 samplePd500 =
      (sampleDb, .error .BackendRequestFailed) :=
  ⟨rfl,
   ((upload_404_reclassified_as_missing sampleCfg sampleDb 0 1 samplePd404
      "404" rfl).1 rfl).1,
   (upload_404_reclassified_as_missing sampleCfg sampleDb 0 1 samplePd500
      "500" rfl).2.1 (by decide) (by decide)⟩

/-- C7: an AlreadyRunning UploadStream confirmation is absorbed silently:
the vacuum response match leaves the database unchanged and adds no
message, and the backend event branch (status "200" with state
"already_running") likewise returns with no mutation and no message. -/
theorem already_running_absorbed (cfg : UploadConfigs) (db : ConfDb)
    (now : Int) (tnRtcId : Nat) (pd : PluginData) (i : Nat)
    (h200 : pd.status = some "200") (hid : pd.id = some i)
    (hstate : pd.state = some "already_running") :
    handleUploadResponse cfg db now (.AlreadyRunning i) = (db, .ok []) ∧
    handleUploadStreamEvent cfg db now tnRtcId pd = (db, .ok []) := by
  constructor
  · rfl
  · simp [handleUploadStreamEvent, h200, hid, hstate]

/-- C7 witness: the AlreadyRunning confirmation for the sample recording
leaves the sample database unchanged and emits nothing on both paths. -/
theorem already_running_absorbed_witness :
    handleUploadResponse sampleCfg sampleDb 0 (.AlreadyRunning 1) =
      (sampleDb, .ok []) ∧
    handleUploadStreamEvent sampleCfg sampleDb 0 1 samplePdAlready =
      (sampleDb, .ok []) :=
  already_running_absorbed sampleCfg sampleDb 0 1 samplePdAlready 1 rfl rfl rfl

theorem uploadEventEntries_all_ready (cfg : UploadConfigs) (room : Room)
    (c : UploadConfig) (l : List (Recording × Rtc))
    (hcfg : uploadConfig cfg room = .ok c)
    (hall : ∀ p ∈ l, p.1.status = .Ready) :
    uploadEventEntries cfg room l =
      .ok (l.map fun p =>
        { id := p.1.rtcId, status := .Ready,
          uri := some ("s3://" ++ c.bucket ++ "/" ++ recordName p.1 room),
          createdBy := p.2.createdBy, mjrDumpsUris := p.1.mjrDumpsUris }) := by
  induction l with
  | nil => rfl
  | cons p rest ih =>
    have hp : p.1.status = .Ready := hall p (by simp)
    have hrest : ∀ q ∈ rest, q.1.status = .Ready :=
      fun q hq => hall q (by simp [hq])
    simp [uploadEventEntries, entryUri, hp, hcfg, ih hrest]

theorem filterMap_ready_of_roomDone (pairs : List (Rtc × Option Recording))
    (hdone : (pairs.all fun p =>
      match p.2 with
      | none => true
      | some rec' => rec'.status == .Ready) = true) :
    (pairs.filterMap fun p =>
      p.2.bind fun rec' =>
        if rec'.status == .Ready then some (rec', p.1) else none) =
    pairs.filterMap (fun p => p.2.map fun rec' => (rec', p.1)) := by
  induction pairs with
  | nil => rfl
  | cons p rest ih =>
    simp only [List.all_cons, Bool.and_eq_true] at hdone
    obtain ⟨hp, hrest⟩ := hdone
    rw [List.filterMap_cons, List.filterMap_cons]
    cases h2 : p.2 with
    | none =>
      exact ih hrest
    | some rec' =>
      rw [h2] at hp
      have hp' : rec'.status = RecordingStatus.Ready := eq_of_beq hp
      simp only [Option.some_bind, Option.map_some', hp']
      rw [if_pos (by rfl)]
      rw [ih hrest]

theorem all_ready_of_roomDone (pairs : List (Rtc × Option Recording))
    (hdone : (pairs.all fun p =>
      match p.2 with
      | none => true
      | some rec' => rec'.status == .Ready) = true) :
    ∀ q ∈ pairs.filterMap (fun p => p.2.map fun rec' => (rec', p.1)),
      q.1.status = .Ready := by
  intro q hq
  simp only [List.mem_filterMap] at hq
  obtain ⟨p, hp, hmap⟩ := hq
  have := List.all_eq_true.mp hdone p hp
  cases h2 : p.2 with
  | none => rw [h2] at hmap; simp at hmap
  | some rec' =>
    rw [h2] at hmap this
    simp only [Option.map_some', Option.some.injEq] at hmap
    rw [← hmap]
    exact eq_of_beq this

/-- C1 (amended): after a Done upload response for a recording is applied,
a room.upload notification is emitted iff every rtc of the room either has
no recording or has a Ready one (a Missing recording suppresses the
event); when emitted there is exactly one notification, broadcast to the
audience topic, enumerating exactly the rtcs that have recordings, and
every entry is Ready and carries an s3 uri whose path is prefixed by the
classroom id for Owned-policy rooms with one, else unprefixed, with the
fixed ".source.webm" filename keyed by the rtc id. -/
theorem vacuum_done_upload_event (cfg : UploadConfigs) (db : ConfDb)
    (now : Int) (id : Nat) (uris : Option (List String)) (rtc : Rtc)
    (room : Room) (c : UploadConfig)
    (hrtc : (applyDoneUpdate db id uris).rtcs.find? (fun r => r.id == id) =
      some rtc)
    (hroom : findRoomByRtcId (applyDoneUpdate db id uris) rtc.id .Any now =
      .ok room)
    (hcfg : uploadConfig cfg room = .ok c) :
    (handleUploadResponse cfg db now (.Done id uris)).1 =
      applyDoneUpdate db id uris ∧
    ((∃ ev, (handleUploadResponse cfg db now (.Done id uris)).2 =
        .ok [.roomUpload ev]) ↔
      ((listWithRecording (applyDoneUpdate db id uris) room.id).all fun p =>
        match p.2 with
        | none => true
        | some rec' => rec'.status == .Ready) = true) ∧
    (((listWithRecording (applyDoneUpdate db id uris) room.id).all fun p =>
        match p.2 with
        | none => true
        | some rec' => rec'.status == .Ready) = false →
      (handleUploadResponse cfg db now (.Done id uris)).2 = .ok []) ∧
    (∀ ev, (handleUploadResponse cfg db now (.Done id uris)).2 =
        .ok [.roomUpload ev] →
      ev.label = "room.upload" ∧ ev.id = room.id ∧
      ev.topic = "audiences/" ++ room.audience ++ "/events" ∧
      ev.rtcs.map (fun e => e.id) =
        (listWithRecording (applyDoneUpdate db id uris) room.id).filterMap
          (fun p => p.2.map fun rec' => rec'.rtcId) ∧
      ∀ e ∈ ev.rtcs, e.status = .Ready ∧
        e.uri = some ("s3://" ++ c.bucket ++ "/" ++
          (match room.rtcSharingPolicy with
           | .Owned =>
             match room.classroomId with
             | some cid => toString cid ++ "/"
             | none => ""
           | _ => "") ++ toString e.id ++ ".source.webm")) := by
  have hred : handleUploadResponse cfg db now (.Done id uris) =
      (let db' := applyDoneUpdate db id uris
       let pairs := listWithRecording db' room.id
       let roomDone := pairs.all fun p =>
         match p.2 with
         | none => true
         | some rec' => rec'.status == .Ready
       if roomDone then
         let recsWithRtcs := pairs.filterMap fun p =>
           p.2.bind fun rec' =>
             if rec'.status == .Ready then some (rec', p.1) else none
         match uploadEvent cfg room recsWithRtcs with
         | .error e => (db', .error e)
         | .ok ev => (db', .ok [.roomUpload ev])
       else (db', .ok [])) := by
    simp only [handleUploadResponse, hrtc, hroom]
  by_cases hdone : ((listWithRecording (applyDoneUpdate db id uris) room.id).all
      fun p =>
        match p.2 with
        | none => true
        | some rec' => rec'.status == .Ready) = true
  · have hfm := filterMap_ready_of_roomDone _ hdone
    have hall := all_ready_of_roomDone _ hdone
    have hev : uploadEvent cfg room
        ((listWithRecording (applyDoneUpdate db id uris) room.id).filterMap
          fun p => p.2.bind fun rec' =>
            if rec'.status == .Ready then some (rec', p.1) else none) =
        .ok (readyUploadEvent c room
          ((listWithRecording (applyDoneUpdate db id uris) room.id).filterMap
            (fun p => p.2.map fun rec' => (rec', p.1)))) := by
      rw [hfm]
      unfold uploadEvent readyUploadEvent
      rw [uploadEventEntries_all_ready cfg room c _ hcfg hall]
    have hres : handleUploadResponse cfg db now (.Done id uris) =
        (applyDoneUpdate db id uris,
         .ok [.roomUpload (readyUploadEvent c room
           ((listWithRecording (applyDoneUpdate db id uris) room.id).filterMap
             (fun p => p.2.map fun rec' => (rec', p.1))))]) := by
      rw [hred]
      simp only [hdone, if_true, hev]
    refine ⟨by rw [hres], ?_, ?_, ?_⟩
    · exact iff_of_true ⟨_, by rw [hres]⟩ hdone
    · intro hfalse
      rw [hdone] at hfalse
      exact absurd hfalse (by decide)
    · intro ev hev'
      rw [hres] at hev'
      have hevEq : readyUploadEvent c room
          ((listWithRecording (applyDoneUpdate db id uris) room.id).filterMap
            (fun p => p.2.map fun rec' => (rec', p.1))) = ev := by
        simpa using hev'
      subst hevEq
      refine ⟨rfl, rfl, rfl, ?_, ?_⟩
      · unfold readyUploadEvent
        rw [List.map_map, List.map_filterMap]
        congr 1
        funext p
        cases p.2 <;> rfl
      · intro e he
        simp only [readyUploadEvent, List.mem_map] at he
        obtain ⟨q, hq, rfl⟩ := he
        refine ⟨rfl, ?_⟩
        simp [recordName, String.append_assoc]
  · rw [hred]
    simp only [Bool.not_eq_true] at hdone
    simp only [hdone, if_false]
    refine ⟨rfl, ?_, fun _ => rfl, ?_⟩
    · constructor
      · rintro ⟨ev, hev⟩
        simp at hev
      · intro h
        exact absurd h (by decide)
    · intro ev hev
      simp at hev

/-- C1 counterexample: in a room where, after the Done response is
applied, every rtc has a terminal recording (one Ready, one Missing —
none InProgress), the code emits no room.upload notification, because its
room-done test requires every present recording to be Ready. -/
theorem vacuum_done_missing_suppresses_event :
    (handleUploadResponse sampleCfg sampleDbWithMissing 0 (.Done 1 none)).2 =
      .ok [] ∧
    ∀ p ∈ listWithRecording
        (handleUploadResponse sampleCfg sampleDbWithMissing 0
          (.Done 1 none)).1 10,
      p.2.isSome = true ∧
      p.2.all (fun rec' => rec'.status != .InProgress) = true := by
  refine ⟨rfl, by decide⟩

/-- C1 witness: on a room whose other recording is already Ready, the Done
response yields the room.upload notification. -/
theorem vacuum_done_upload_event_witness :
    ∃ ev, (handleUploadResponse sampleCfg sampleDbReady 0 (.Done 1 none)).2 =
      .ok [.roomUpload ev] := by
  have h := vacuum_done_upload_event sampleCfg sampleDbReady 0 1 none
    { id := 1, roomId := 10, createdBy := "alice" } sampleRoom
    { backend := "janus", bucket := "bkt" } (by decide) rfl rfl
  exact h.2.1.mpr (by decide)

/-- C5 (amended): a failure while processing one room of a vacuum sweep
aborts the sweep: if the items before it succeed and an item fails, the
whole sweep returns that item's error, the rooms after it are never
processed, and every notification accumulated for the earlier rooms is
discarded with the error (persisted mutations already made are kept in
the returned state). -/
theorem vacuum_failure_aborts_sweep (cfg : UploadConfigs)
    (janus : Nat → Except AppErrorKind UploadResponse) (now : Int)
    (db db' db'' : ConfDb) (pre post : List VacuumItem) (item : VacuumItem)
    (acc acc' : List OutMsg) (e : AppErrorKind)
    (hpre : vacuumLoop cfg janus now db pre acc = (db', .ok acc'))
    (hfail : vacuumStep cfg janus now db' item = (db'', .error e)) :
    vacuumLoop cfg janus now db (pre ++ item :: post) acc = (db'', .error e) := by
  induction pre generalizing db acc with
  | nil =>
    simp only [vacuumLoop] at hpre
    have h1 : db = db' := congrArg Prod.fst hpre
    subst h1
    simp only [List.nil_append, vacuumLoop, hfail]
  | cons q qs ih =>
    rw [List.cons_append]
    simp only [vacuumLoop] at hpre ⊢
    rcases hstep : vacuumStep cfg janus now db q with ⟨d, e0 | msgs⟩
    · rw [hstep] at hpre
      simp at hpre
    · rw [hstep] at hpre
      exact ih d (acc ++ msgs) hpre

/-- C5 counterexample: in a sweep over rooms 10 and 20 where room 20's
upload request fails, the first room was processed and its room.close
notification issued, yet the sweep result is the bare error — the issued
notification is discarded; with the failing room first, the sweep aborts
before touching room 10 at all (its agent rows survive). -/
theorem vacuum_failure_discards_prior_notifications :
    vacuumStep sampleCfg sampleJanus 0 sampleDb sampleItem1 =
      ({ sampleDb with agents := [] },
       .ok [.roomClose "rooms/10/events" sampleRoom]) ∧
    vacuumLoop sampleCfg sampleJanus 0 sampleDb [sampleItem1, sampleItem2] [] =
      ({ sampleDb with agents := [] }, .error .BackendRequestFailed) ∧
    vacuumLoop sampleCfg sampleJanus 0 sampleDb [sampleItem2, sampleItem1] [] =
      (sampleDb, .error .BackendRequestFailed) := by
  refine ⟨rfl, rfl, rfl⟩

/-- C5 witness: the amended abort behavior at the concrete two-room
sweep. -/
theorem vacuum_failure_aborts_sweep_witness :
    vacuumLoop sampleCfg sampleJanus 0 sampleDb [sampleItem1, sampleItem2] [] =
      ({ sampleDb with agents := [] }, .error .BackendRequestFailed) :=
  vacuum_failure_aborts_sweep sampleCfg sampleJanus 0 sampleDb
    { sampleDb with agents := [] } { sampleDb with agents := [] }
    [sampleItem1] [] sampleItem2
    [] [.roomClose "rooms/10/events" sampleRoom] .BackendRequestFailed
    rfl rfl

theorem filterMap_map_of_isSome {α β γ : Type} (A : List α) (f : α → Option β)
    (g : α → γ) (h : ∀ a ∈ A, (f a).isSome = true) :
    (A.filterMap fun a => (f a).map fun _ => g a) = A.map g := by
  induction A with
  | nil => rfl
  | cons a rest ih =>
    obtain ⟨b, hb⟩ := Option.isSome_iff_exists.mp (h a (by simp))
    have hrest : ∀ a ∈ rest, (f a).isSome = true := fun a ha => h a (by simp [ha])
    simp [List.filterMap_cons, hb, ih hrest]

/-- C3: a backend-offline status event lists the streams active on the
backend and, in one state update, removes the agent connections on that
backend and the backend's row while leaving the other tables untouched;
it then emits exactly one rtc_stream.update notification per previously
active stream (in order, none for inactive streams or other backends),
each carrying the stream stopped at now. -/
theorem backend_offline_stops_active_streams (st : StreamDb) (B : String)
    (now : Int)
    (hjoin : ∀ s ∈ st.streams, s.backendId = B → s.isActive = true →
      (st.rtcs.find? fun r => r.id == s.rtcId).isSome = true) :
    (handleStatusOffline st B now).1.streams = st.streams ∧
    (handleStatusOffline st B now).1.rtcs = st.rtcs ∧
    (handleStatusOffline st B now).1.rooms = st.rooms ∧
    (∀ b, b ∈ (handleStatusOffline st B now).1.backends ↔
      b ∈ st.backends ∧ b.id ≠ B) ∧
    (∀ c, c ∈ (handleStatusOffline st B now).1.agentConnections ↔
      c ∈ st.agentConnections ∧ c.backendId ≠ B) ∧
    (handleStatusOffline st B now).2.map (fun e => e.stream.id) =
      (st.streams.filter fun s => s.backendId == B && s.isActive).map
        (fun s => s.id) ∧
    (∀ e ∈ (handleStatusOffline st B now).2,
      e.label = "rtc_stream.update" ∧
      ∃ lo, e.stream.time = some { lo := lo, hi := .Excluded now }) := by
  refine ⟨rfl, rfl, rfl, ?_, ?_, ?_, ?_⟩
  · intro b
    simp only [handleStatusOffline, List.mem_filter, bne_iff_ne, ne_eq]
  · intro c
    simp only [handleStatusOffline, List.mem_filter, bne_iff_ne, ne_eq]
  · have hjoin' : ∀ s ∈ st.streams.filter
        (fun s => s.backendId == B && s.isActive),
        ((st.rtcs.find? fun r => r.id == s.rtcId)).isSome = true := by
      intro s hs
      rw [List.mem_filter] at hs
      obtain ⟨hmem, hcond⟩ := hs
      rw [Bool.and_eq_true] at hcond
      exact hjoin s hmem (by simpa using hcond.1) hcond.2
    have hstep : ∀ (A : List JanusRtcStream),
        (∀ s ∈ A, ((st.rtcs.find? fun r => r.id == s.rtcId)).isSome = true) →
        (A.filterMap (fun s => (st.rtcs.find? fun r => r.id == s.rtcId).map
          fun r => (s, r))).map (fun p => p.1.id) =
          A.map (fun s => s.id) := by
      intro A hA
      induction A with
      | nil => rfl
      | cons a rest ih =>
        obtain ⟨r, hr⟩ := Option.isSome_iff_exists.mp (hA a (by simp))
        have hrest : ∀ s ∈ rest,
            ((st.rtcs.find? fun r => r.id == s.rtcId)).isSome = true :=
          fun s hs => hA s (by simp [hs])
        simp [List.filterMap_cons, hr, ih hrest]
    have hcomp : (handleStatusOffline st B now).2.map (fun e => e.stream.id) =
        ((st.streams.filter fun s => s.backendId == B && s.isActive).filterMap
          (fun s => (st.rtcs.find? fun r => r.id == s.rtcId).map
            fun r => (s, r))).map (fun p => p.1.id) := by
      simp only [handleStatusOffline, List.map_map]
      rfl
    rw [hcomp]
    exact hstep _ hjoin'
  · intro e he
    simp only [handleStatusOffline, List.mem_map, List.mem_filterMap,
      List.mem_filter, Bool.and_eq_true] at he
    obtain ⟨p, ⟨s, ⟨hmem, hback, hact⟩, hfind⟩, rfl⟩ := he
    refine ⟨rfl, ?_⟩
    have hs1 : p.1 = s := by
      rcases hfound : st.rtcs.find? fun r => r.id == s.rtcId with _ | r
      · rw [hfound] at hfind; simp at hfind
      · rw [hfound] at hfind
        simp only [Option.map_some', Option.some.injEq] at hfind
        rw [← hfind]
    rw [hs1]
    unfold JanusRtcStream.isActive at hact
    rcases htime : s.time with _ | t
    · rw [htime] at hact; simp at hact
    · exact ⟨t.lo, by simp [updateEvent, htime]⟩

/-- C3 witness: on the sample stream database the join hypothesis holds
and backend "b1" going offline emits exactly the notifications of its
active streams. -/
theorem backend_offline_stops_active_streams_witness :
    (∀ s ∈ sampleStreamDb.streams, s.backendId = "b1" → s.isActive = true →
      (sampleStreamDb.rtcs.find? fun r => r.id == s.rtcId).isSome = true) ∧
    (handleStatusOffline sampleStreamDb "b1" 30).2.map (fun e => e.stream.id) =
      (sampleStreamDb.streams.filter
        fun s => s.backendId == "b1" && s.isActive).map (fun s => s.id) :=
  ⟨by decide,
   (backend_offline_stops_active_streams sampleStreamDb "b1" 30
     (by decide)).2.2.2.2.2.1⟩

/-- C8: a WebRtcUp event for a (backend, handle) pair with no matching
inactive stream row returns the state untouched and emits nothing; when a
matching inactive row exists it is marked started (and only it), and —
when the owning room is found and open — exactly one rtc_stream.update
notification is emitted to that room. -/
theorem webrtc_up_no_op_or_start (st : StreamDb) (B : String) (H : Int)
    (now : Int) :
    (findRtcStream st B H = none → handleWebRtcUp st B H now = (st, .ok [])) ∧
    (∀ s, findRtcStream st B H = some s →
      (handleWebRtcUp st B H now).1 =
        { st with streams := st.streams.map fun t =>
            if t.id == s.id then startStream s now else t } ∧
      ∀ rtc room, st.rtcs.find? (fun r => r.id == s.rtcId) = some rtc →
        st.rooms.find? (fun r => r.id == rtc.roomId) = some room →
        checkRoom room .Open now = .ok room →
        (handleWebRtcUp st B H now).2 =
          .ok [updateEvent room.id (startStream s now)]) := by
  constructor
  · intro h
    simp only [handleWebRtcUp, h]
  · intro s hs
    constructor
    · simp only [handleWebRtcUp, hs]
    · intro rtc room h1 h2 h3
      simp only [handleWebRtcUp, hs, h1, h2, h3]

/-- C8 witness: on the sample stream database, handle 8 of backend "b1"
has the inactive stream 6, which is started and notified to room 10;
the hypotheses are discharged at the concrete rows. -/
theorem webrtc_up_no_op_or_start_witness :
    findRtcStream sampleStreamDb "b1" 8 =
      some { id := 6, handleId := 8, rtcId := 2, backendId := "b1",
             time := none } ∧
    (handleWebRtcUp sampleStreamDb "b1" 8 30).2 =
      .ok [updateEvent 10 (startStream
        { id := 6, handleId := 8, rtcId := 2, backendId := "b1",
          time := none } 30)] := by
  refine ⟨by decide, ?_⟩
  exact ((webrtc_up_no_op_or_start sampleStreamDb "b1" 8 30).2
    { id := 6, handleId := 8, rtcId := 2, backendId := "b1", time := none }
    (by decide)).2
    { id := 2, roomId := 10, createdBy := "bob" } sampleRoom
    (by decide) (by decide) rfl

theorem mem_orphan_closeTasks (ts : List (Nat × Option Room)) (now : Int)
    (r' : Room) :
    r' ∈ ts.filterMap (orphanCloseF now) ↔
    ∃ p ∈ ts, ∃ room, p.2 = some room ∧ room.isClosed now = false ∧
      r' = closeRoom room now := by
  simp only [List.mem_filterMap]
  constructor
  · rintro ⟨p, hp, hf⟩
    unfold orphanCloseF at hf
    obtain ⟨room, h2, hf⟩ := Option.bind_eq_some.mp hf
    cases hcl : room.isClosed now
    · rw [hcl] at hf
      simp only [Bool.not_false, if_true, Option.some.injEq] at hf
      exact ⟨p, hp, room, h2, hcl, hf.symm⟩
    · rw [hcl] at hf
      simp at hf
  · rintro ⟨p, hp, room, h2, hop, rfl⟩
    refine ⟨p, hp, ?_⟩
    unfold orphanCloseF
    rw [h2, Option.some_bind, hop]
    simp

theorem orphan_notif_room_id_mem (ts : List (Nat × Option Room)) (now : Int)
    (hco : ∀ p ∈ ts, ∀ room, p.2 = some room → room.id = p.1) :
    ∀ n ∈ (ts.filterMap (orphanCloseF now)).flatMap orphanNotifs,
      n.room.id ∈ ts.map (fun p => p.1) := by
  intro n hn
  simp only [List.mem_flatMap] at hn
  obtain ⟨r', hr', hn⟩ := hn
  obtain ⟨p, hp, room, h2, hop, rfl⟩ := (mem_orphan_closeTasks ts now r').mp hr'
  have hid : room.id = p.1 := hco p hp room h2
  have hnr : n.room = closeRoom room now := by
    unfold orphanNotifs at hn
    simp only [List.mem_cons, List.mem_singleton] at hn
    rcases hn with rfl | rfl | h
    · rfl
    · rfl
    · simp at h
  rw [hnr, show (closeRoom room now).id = room.id from rfl, hid]
  exact List.mem_map_of_mem _ hp

theorem orphan_notifs_filter (ts : List (Nat × Option Room)) (now : Int)
    (rid : Nat) (hids : (ts.map (fun p => p.1)).Nodup)
    (hco : ∀ p ∈ ts, ∀ room, p.2 = some room → room.id = p.1) :
    ((ts.filterMap (orphanCloseF now)).flatMap orphanNotifs).filter
      (fun n => n.room.id == rid) = [] ∨
    ∃ r', r'.id = rid ∧
      ((ts.filterMap (orphanCloseF now)).flatMap orphanNotifs).filter
        (fun n => n.room.id == rid) = orphanNotifs r' := by
  induction ts with
  | nil => left; rfl
  | cons p rest ih =>
    have hids' : (rest.map (fun p => p.1)).Nodup := (List.nodup_cons.mp hids).2
    have hp1 : p.1 ∉ rest.map (fun p => p.1) := (List.nodup_cons.mp hids).1
    have hco' : ∀ q ∈ rest, ∀ room, q.2 = some room → room.id = q.1 :=
      fun q hq => hco q (List.mem_cons_of_mem _ hq)
    rw [List.filterMap_cons]
    cases hcf : orphanCloseF now p with
    | none => exact ih hids' hco'
    | some r' =>
      have hid : r'.id = p.1 := by
        unfold orphanCloseF at hcf
        obtain ⟨proom, hp2, hif⟩ := Option.bind_eq_some.mp hcf
        cases hpc : proom.isClosed now
        · rw [hpc] at hif
          simp only [Bool.not_false, if_true, Option.some.injEq] at hif
          rw [← hif]
          exact hco p (List.mem_cons_self _ _) proom hp2
        · rw [hpc] at hif
          simp at hif
      rw [List.flatMap_cons, List.filter_append]
      by_cases hr : r'.id = rid
      · right
        refine ⟨r', hr, ?_⟩
        have h1 : (orphanNotifs r').filter (fun n => n.room.id == rid) =
            orphanNotifs r' := by
          simp [orphanNotifs, hr]
        have h2 : ((rest.filterMap (orphanCloseF now)).flatMap
            orphanNotifs).filter (fun n => n.room.id == rid) = [] := by
          rw [List.filter_eq_nil_iff]
          intro n hn
          have hmem := orphan_notif_room_id_mem rest now hco' n hn
          simp only [beq_iff_eq]
          intro heq
          rw [heq, ← hr, hid] at hmem
          exact hp1 hmem
        rw [h1, h2, List.append_nil]
      · have h1 : (orphanNotifs r').filter (fun n => n.room.id == rid) = [] := by
          simp [orphanNotifs, hr]
        rcases ih hids' hco' with h | ⟨r'', hr'', heq⟩
        · left
          rw [h1, h, List.append_nil]
        · right
          exact ⟨r'', hr'', by rw [h1, heq, List.nil_append]⟩

theorem orphan_removed_iff (ts : List (Nat × Option Room)) (now : Int)
    (hco : ∀ p ∈ ts, ∀ room, p.2 = some room → room.id = p.1) :
    ∀ oid : Nat,
      oid ∈ ts.filterMap (orphanSkipF now) ++
        (ts.filterMap (orphanCloseF now)).map (fun r => r.id) ↔
      oid ∈ ts.map (fun p => p.1) := by
  induction ts with
  | nil => simp
  | cons p rest ih =>
    intro oid
    have hco' : ∀ q ∈ rest, ∀ room, q.2 = some room → room.id = q.1 :=
      fun q hq => hco q (List.mem_cons_of_mem _ hq)
    have hrest := ih hco' oid
    simp only [List.mem_append] at hrest
    rw [List.filterMap_cons, List.filterMap_cons]
    rcases h2 : p.2 with _ | room
    · have hskip : orphanSkipF now p = some p.1 := by
        simp [orphanSkipF, h2]
      have hcf : orphanCloseF now p = none := by
        unfold orphanCloseF
        rw [h2]
        rfl
      rw [hskip, hcf]
      simp only [List.cons_append, List.mem_cons, List.mem_append,
        List.map_cons]
      constructor
      · rintro (rfl | h)
        · exact Or.inl rfl
        · exact Or.inr (hrest.mp h)
      · rintro (rfl | h)
        · exact Or.inl rfl
        · exact Or.inr (by
            have := hrest.mpr h
            tauto)
    · have hid : room.id = p.1 := hco p (List.mem_cons_self _ _) room h2
      cases hcl : room.isClosed now
      · have hskip : orphanSkipF now p = none := by
          simp [orphanSkipF, h2, hcl]
        have hcf : orphanCloseF now p = some (closeRoom room now) := by
          unfold orphanCloseF
          rw [h2, Option.some_bind, hcl]
          rfl
        rw [hskip, hcf]
        simp only [List.map_cons, List.mem_append, List.mem_cons,
          show (closeRoom room now).id = room.id from rfl, hid]
        constructor
        · rintro (h | rfl | h)
          · exact Or.inr (hrest.mp (Or.inl h))
          · exact Or.inl rfl
          · exact Or.inr (hrest.mp (Or.inr h))
        · rintro (rfl | h)
          · exact Or.inr (Or.inl rfl)
          · have := hrest.mpr h
            tauto
      · have hskip : orphanSkipF now p = some p.1 := by
          simp [orphanSkipF, h2, hcl]
        have hcf : orphanCloseF now p = none := by
          unfold orphanCloseF
          rw [h2, Option.some_bind, hcl]
          rfl
        rw [hskip, hcf]
        simp only [List.cons_append, List.mem_cons, List.mem_append,
          List.map_cons]
        constructor
        · rintro (rfl | h)
          · exact Or.inl rfl
          · exact Or.inr (hrest.mp h)
        · rintro (rfl | h)
          · exact Or.inl rfl
          · exact Or.inr (by
              have := hrest.mpr h
              tauto)

/-- C9 (amended): an orphaned-room sweep closes only rooms that were still
open (an already-closed room's close bound is never overwritten, the open
bound is preserved); per room id the sweep emits either no close
notification or exactly the pair of one notification on the room's topic
and one on the audience-wide topic — never two on the same topic; and a
tracking row is removed iff it was handled in this sweep (all loaded rows
here, since the close tasks succeed). -/
theorem orphan_sweep_no_reclose_no_duplicates
    (timedOut : List (Nat × Option Room)) (now : Int)
    (hids : (timedOut.map (fun p => p.1)).Nodup)
    (hco : ∀ p ∈ timedOut, ∀ room, p.2 = some room → room.id = p.1) :
    (∀ r' ∈ (orphanSweep timedOut now).updatedRooms,
      ∃ p ∈ timedOut, ∃ room, p.2 = some room ∧ room.isClosed now = false ∧
        r' = closeRoom room now ∧ r'.time.lo = room.time.lo) ∧
    (∀ rid : Nat,
      ((orphanSweep timedOut now).notifs.filter
        (fun n => n.room.id == rid)) = [] ∨
      ∃ r', r'.id = rid ∧
        ((orphanSweep timedOut now).notifs.filter
          (fun n => n.room.id == rid)) = orphanNotifs r') ∧
    (∀ oid : Nat, oid ∈ (orphanSweep timedOut now).removedIds ↔
      oid ∈ timedOut.map fun p => p.1) := by
  refine ⟨?_, ?_, ?_⟩
  · intro r' hr'
    obtain ⟨p, hp, room, h2, hop, rfl⟩ :=
      (mem_orphan_closeTasks timedOut now r').mp hr'
    exact ⟨p, hp, room, h2, hop, rfl, rfl⟩
  · intro rid
    exact orphan_notifs_filter timedOut now rid hids hco
  · exact orphan_removed_iff timedOut now hco

/-- C9 counterexample: a sweep over one open orphaned room emits two
room.close notifications for that room (one per topic), so "never emits
two close notifications for the same room in one sweep" is false as
literally stated. -/
theorem orphan_sweep_emits_two_notifications :
    ((orphanSweep [(10, some sampleRoom)] 30).notifs.filter
      (fun n => n.room.id == 10)).length = 2 ∧
    ∀ n ∈ (orphanSweep [(10, some sampleRoom)] 30).notifs,
      n.label = "room.close" ∧ n.room.id = 10 := by
  constructor
  · rfl
  · decide

/-- C9 witness: the amended statement at the concrete one-room sweep; the
handled tracking row 10 is removed and its notifications are exactly the
pair for the closed room. -/
theorem orphan_sweep_no_reclose_no_duplicates_witness :
    10 ∈ (orphanSweep [(10, some sampleRoom)] 30).removedIds :=
  ((orphan_sweep_no_reclose_no_duplicates [(10, some sampleRoom)] 30
    (by decide) (by decide)).2.2 10).mpr (by decide)

end Conferences
